import Mathlib

/-!
Verification of the Portus reverse proxy against its natural-language
specification.  The Go source is shallowly embedded: pure helpers become Lean
functions, the authentication middleware becomes a function from the two
credential-bearing header values to an outcome, the middleware chain of
`cmd/portus/main.go` becomes an explicit composition of handler transformers,
and the JSON values handled by `encoding/json` become an inductive type whose
numbers are rationals (Go decodes JSON numbers into `float64`).
-/

/-- Models Go `strings.ToLower` on the strings that matter here.  Lean's
`Char.toLower` lowers exactly the ASCII uppercase range; since no non-ASCII
rune lowercases onto the ASCII letters of `"bearer "`, the Bearer test below
agrees with Go's Unicode-aware lowering. -/
def goToLower (s : String) : String := ⟨s.data.map Char.toLower⟩

/-- Models Go `strings.HasPrefix s pre`: the first `len pre` characters of `s`
equal `pre` (when `s` is shorter, `take` yields a shorter list and the
comparison fails, as in Go). -/
def goStartsWith (s pre : String) : Bool := s.data.take pre.data.length == pre.data

/-- Go slice expression `s[n:]`.  The only prefix dropped below is the
all-ASCII `"Bearer "`, for which byte and character counts agree. -/
def goDrop (s : String) (n : Nat) : String := ⟨s.data.drop n⟩

/-- A proxy key (internal/models): an opaque credential and the application
name it authenticates as. -/
structure ProxyKey where
  key : String
  application : String
deriving DecidableEq

/-- Credential extraction from the Authorization header value
(middleware.go lines 42-46): strip a case-insensitive `Bearer ` prefix when
present, otherwise use the raw value. -/
def stripBearer (authHeader : String) : String :=
  if goStartsWith (goToLower authHeader) "bearer " then goDrop authHeader 7 else authHeader

/-- Token extraction of AuthMiddleware (middleware.go lines 35-54):
the Authorization header is consulted first, x-api-key second.  Go's
`Header.Get` returns `""` both for an absent header and for a
present-but-empty one, so header values are plain strings here. -/
def extractToken (authHeader xApiKey : String) : String :=
  if authHeader ≠ "" then stripBearer authHeader else xApiKey

/-- Lookup in the key map built by AuthMiddleware (middleware.go lines 28-31).
The Go map is filled left to right with overwriting, so a lookup returns the
application of the last list entry carrying the given key. -/
def keyLookup (pks : List ProxyKey) (token : String) : Option String :=
  (pks.reverse.find? (fun pk => pk.key == token)).map (fun pk => pk.application)

/-- Observable outcome of AuthMiddleware before any inner handler runs. -/
inductive AuthOutcome where
  | missingHeader
  | invalidKey
  | ok (application : String)
deriving DecidableEq

/-- The decision logic of AuthMiddleware (middleware.go lines 34-87). -/
def authMiddleware (pks : List ProxyKey) (authHeader xApiKey : String) : AuthOutcome :=
  let token := extractToken authHeader xApiKey
  if token = "" then .missingHeader
  else
    match keyLookup pks token with
    | some app => .ok app
    | none => .invalidKey

/-- The parts of an inbound request the authentication path reads. -/
structure Request where
  authorization : String
  xApiKey : String
deriving DecidableEq

/-- An HTTP response as observed by the caller. -/
structure Response where
  status : Nat
  body : String
  headers : List (String × String)
deriving DecidableEq

/-- A handler receives the request and the response-header map accumulated so
far (Go's `w.Header()`), and produces the final response. -/
def Handler : Type := Request → List (String × String) → Response

/-- Go `http.Header.Set` on the single-valued response headers used here. -/
def setRespHeader (hs : List (String × String)) (k v : String) : List (String × String) :=
  (k, v) :: hs.filter (fun kv => kv.1 ≠ k)

/-- Go `http.Header.Get` on the response-header map. -/
def getRespHeader (hs : List (String × String)) (k : String) : Option String :=
  (hs.find? (fun kv => kv.1 == k)).map (fun kv => kv.2)

/-- Go `http.Error`: sets Content-Type and X-Content-Type-Options on the
pending header map, then writes the status code and the message followed by a
newline. -/
def httpError (hs : List (String × String)) (msg : String) (code : Nat) : Response :=
  { status := code
    body := msg ++ "\n"
    headers := setRespHeader (setRespHeader hs "Content-Type" "text/plain; charset=utf-8")
      "X-Content-Type-Options" "nosniff" }

/-- The 401 body written when no credential was extracted. -/
def missingAuthBody : String := "\x7b\"error\": \"Missing Authorization header\"\x7d"

/-- The 401 body written when the extracted credential is not in the key map. -/
def invalidKeyBody : String := "\x7b\"error\": \"Invalid Authorization key\"\x7d"

/-- AuthMiddleware as a handler transformer (middleware.go lines 33-88):
failures answer 401 via `http.Error` without invoking the inner handler. -/
def authMW (pks : List ProxyKey) (next : Handler) : Handler :=
  fun r hs =>
    match authMiddleware pks r.authorization r.xApiKey with
    | .missingHeader => httpError hs missingAuthBody 401
    | .invalidKey => httpError hs invalidKeyBody 401
    | .ok _ => next r hs

/-- RequestIDMiddleware (middleware.go lines 118-132): sets the X-Request-ID
response header, then passes the request on.  The generated identifier is a
parameter of the embedding. -/
def requestIDMW (rid : String) (next : Handler) : Handler :=
  fun r hs => next r (setRespHeader hs "X-Request-ID" rid)

/-- The `chain` helper of main.go lines 130-136: middleware are applied in
reverse list order, so the first listed middleware ends up outermost and runs
first on the request. -/
def chainMW (h : Handler) (ms : List (Handler → Handler)) : Handler :=
  ms.foldr (fun m acc => m acc) h

/-- The protected-endpoint composition of main.go lines 68-86:
`chain(handler, authMiddleware, requestIDMiddleware)`. -/
def protectedEndpoint (pks : List ProxyKey) (rid : String) (inner : Handler) : Handler :=
  chainMW inner [authMW pks, requestIDMW rid]

/-- A plain 200 handler standing in for an inner endpoint handler when a
concrete run is needed; it leaves the accumulated headers untouched. -/
def okHandler : Handler :=
  fun _ hs => { status := 200, body := "ok", headers := hs }

/-- The inner handlers of the repository only ever add their own headers to
`w.Header()`; none deletes X-Request-ID.  This predicate captures that. -/
def PreservesRequestID (h : Handler) : Prop :=
  ∀ r hs v, getRespHeader hs "X-Request-ID" = some v →
    getRespHeader (h r hs).headers "X-Request-ID" = some v

/-- JSON values as decoded by Go's `encoding/json` into `interface` values:
numbers decode to `float64`, modelled as rationals. -/
inductive JsonVal where
  | null
  | bool (b : Bool)
  | num (q : Rat)
  | str (s : String)
  | arr (elems : List JsonVal)
  | obj (fields : List (String × JsonVal))

/-- Reading a key of a decoded JSON object (Go map indexing). -/
def jsonLookup (fields : List (String × JsonVal)) (k : String) : Option JsonVal :=
  (fields.find? (fun kv => kv.1 == k)).map (fun kv => kv.2)

/-- Go map assignment on a decoded JSON object. -/
def jsonSet (fields : List (String × JsonVal)) (k : String) (v : JsonVal) :
    List (String × JsonVal) :=
  if fields.any (fun kv => kv.1 == k) then
    fields.map (fun kv => if kv.1 == k then (kv.1, v) else kv)
  else fields ++ [(k, v)]

/-- Go conversion `int(f)` of a `float64`: truncation toward zero. -/
def goTrunc (q : Rat) : Int := if 0 ≤ q then q.floor else q.ceil

/-- Decoding the `max_tokens` field of a MessagesRequest into a Go `int`:
an absent or null field leaves the zero value, a whole number decodes to
itself, and anything else is a decode error (the handler then answers 400
before the token-budget pass can run). -/
def parseMaxTokens (body : List (String × JsonVal)) : Option Int :=
  match jsonLookup body "max_tokens" with
  | none => some 0
  | some JsonVal.null => some 0
  | some (JsonVal.num q) => if q.den = 1 then some q.num else none
  | some _ => none

/-- Reading the alias override `max_tokens` (part_000 lines 207-212): only a
value decoded as a number is used, truncated to `int`; in every other case the
parsed field keeps its zero value. -/
def overrideMaxTokens (op : Option (List (String × JsonVal))) : Int :=
  match op with
  | some params =>
    match jsonLookup params "max_tokens" with
    | some (JsonVal.num q) => goTrunc q
    | _ => 0
  | none => 0

/-- The token-budget pass of MessagesHandler (part_000 lines 205-225), acting
on the decoded request body; `mt` is the decoded MaxTokens field and `op` the
alias's override-parameter map. -/
def injectMaxTokens (mt : Int) (op : Option (List (String × JsonVal)))
    (body : List (String × JsonVal)) : List (String × JsonVal) :=
  if mt ≠ 0 then body
  else
    let fromOverride := overrideMaxTokens op
    let resolved : Int := if fromOverride = 0 then 4096 else fromOverride
    jsonSet body "max_tokens" (JsonVal.num (resolved : Rat))

/-- The RFC 7230 token symbols accepted in header field names by Go's
textproto `validHeaderFieldByte`; code 39 is the apostrophe and 96 the
backtick. -/
def tokenSymbols : List Char :=
  ['!', '#', '$', '%', '&', Char.ofNat 39, '*', '+', '-', '.', '^', '_',
    Char.ofNat 96, '|', '~']

/-- Whether a character is valid in a header field name (Go
`validHeaderFieldByte`; non-ASCII bytes are invalid there, and the
corresponding characters are invalid here). -/
def validHeaderFieldChar (c : Char) : Bool :=
  c.isAlpha || c.isDigit || tokenSymbols.contains c

/-- The case-normalisation loop of Go's `canonicalMIMEHeaderKey`: uppercase at
the start and after each hyphen, lowercase elsewhere. -/
def canonChars : Bool → List Char → List Char
  | _, [] => []
  | upper, c :: cs =>
    let c2 := if upper then c.toUpper else c.toLower
    c2 :: canonChars (c2 == '-') cs

/-- Go `http.CanonicalHeaderKey` (textproto `CanonicalMIMEHeaderKey`): a key
containing an invalid character is returned unchanged, otherwise it is
case-normalised. -/
def canonicalHeaderKey (s : String) : String :=
  if s.data.all validHeaderFieldChar then ⟨canonChars true s.data⟩ else s

/-- The fixed skip set of part_000 lines 22-34 (hop-by-hop headers plus the
two caller-credential headers). -/
def hopByHopHeaders : List String :=
  ["Connection", "Keep-Alive", "Proxy-Authenticate", "Proxy-Authorization",
   "Te", "Trailers", "Transfer-Encoding", "Upgrade", "Authorization", "X-Api-Key"]

/-- Go `http.Header.Add`: canonicalises the key and appends the value to the
entry for that key, creating the entry when needed. -/
def headerAdd (h : List (String × List String)) (key value : String) :
    List (String × List String) :=
  let ck := canonicalHeaderKey key
  if h.any (fun kv => kv.1 == ck) then
    h.map (fun kv => if kv.1 == ck then (kv.1, kv.2 ++ [value]) else kv)
  else h ++ [(ck, [value])]

/-- The `copyHeaders` function of part_000 lines 455-464.  The destination is
the header map of the freshly created upstream request, which starts empty. -/
def copyHeaders (src : List (String × List String)) : List (String × List String) :=
  src.foldl
    (fun dst kv =>
      if hopByHopHeaders.contains (canonicalHeaderKey kv.1) then dst
      else kv.2.foldl (fun d v => headerAdd d kv.1 v) dst)
    []

/-- Routing strategy of a multi-target alias (internal/models). -/
structure StrategyConfig where
  mode : String
  onStatusCodes : List Int := []
deriving DecidableEq

/-- Retry directive passed through to the gateway (internal/models). -/
structure RetryConfig where
  attempts : Int := 0
  onStatusCodes : List Int := []
deriving DecidableEq

/-- Extended-thinking directive for Anthropic models (internal/models). -/
structure ThinkingConfig where
  thinkingType : String := ""
  budgetTokens : Int := 0
deriving DecidableEq

/-- One target of a multi-target alias (internal/models).  Note the Go struct
carries no Vertex fields. -/
structure TargetConfig where
  provider : String := ""
  apiKey : String := ""
  overrideParams : Option (List (String × JsonVal)) := none
  weight : Int := 0
  awsAccessKeyID : String := ""
  awsSecretAccessKey : String := ""
  awsRegion : String := ""
  awsSessionToken : String := ""

/-- A model alias configuration (internal/models `ModelConfig`).  Go nil maps
and nil pointers are `none`; `requestTimeout` is in milliseconds. -/
structure ModelConfig where
  provider : String := ""
  apiKey : String := ""
  strategy : Option StrategyConfig := none
  targets : List TargetConfig := []
  overrideParams : Option (List (String × JsonVal)) := none
  retry : Option RetryConfig := none
  requestTimeout : Int := 0
  thinking : Option ThinkingConfig := none
  betaHeaders : List String := []
  reasoningEffort : String := ""
  thinkingLevel : String := ""
  awsAccessKeyID : String := ""
  awsSecretAccessKey : String := ""
  awsRegion : String := ""
  awsSessionToken : String := ""
  vertexProjectID : String := ""
  vertexRegion : String := ""
  vertexServiceAccountJSON : String := ""

/-- The outbound configuration sent in `x-portkey-config` (internal/models
`PortkeyConfig`). -/
structure PortkeyConfig where
  provider : String := ""
  apiKey : String := ""
  strategy : Option StrategyConfig := none
  targets : List TargetConfig := []
  overrideParams : Option (List (String × JsonVal)) := none
  retry : Option RetryConfig := none
  requestTimeout : Int := 0
  awsAccessKeyID : String := ""
  awsSecretAccessKey : String := ""
  awsRegion : String := ""
  awsSessionToken : String := ""
  vertexProjectID : String := ""
  vertexRegion : String := ""
  vertexServiceAccountJSON : String := ""

/-- The `buildPortkeyConfig` function of part_000 lines 340-379.  The Go
`make` plus range-copy of OverrideParams produces a map with the same content
(an allocated empty map when the source map is nil), and `copy` on the targets
slice preserves the elements in order. -/
def buildPortkeyConfig (model : ModelConfig) : PortkeyConfig :=
  let base : PortkeyConfig := { retry := model.retry, requestTimeout := model.requestTimeout }
  match model.strategy with
  | some s =>
    { base with strategy := some s, targets := model.targets }
  | none =>
    let c1 := { base with
      provider := model.provider,
      apiKey := model.apiKey,
      overrideParams := some (model.overrideParams.getD []) }
    let c2 :=
      if model.provider = "bedrock" then
        { c1 with
          awsAccessKeyID := model.awsAccessKeyID,
          awsSecretAccessKey := model.awsSecretAccessKey,
          awsRegion := model.awsRegion,
          awsSessionToken := model.awsSessionToken }
      else c1
    if model.provider = "vertex-ai" then
      { c2 with
        vertexProjectID := model.vertexProjectID,
        vertexRegion := model.vertexRegion,
        vertexServiceAccountJSON := model.vertexServiceAccountJSON }
    else c2

/-- The `validateProviderConfig` function of loader.go lines 245-263, used for
targets.  Its switch has no default case and its vertex-ai arm performs no
check, so those providers validate to `none` (success). -/
def validateProviderConfig (aliasName provider : String) (targetIndex : Nat)
    (target : TargetConfig) : Option String :=
  if provider = "anthropic" ∨ provider = "openai" ∨ provider = "google" then
    if target.apiKey = "" then
      some ("model " ++ aliasName ++ " target " ++ toString targetIndex ++
        " (provider " ++ provider ++ ") missing api_key")
    else none
  else if provider = "bedrock" then
    if target.awsAccessKeyID = "" ∨ target.awsSecretAccessKey = "" ∨ target.awsRegion = "" then
      some ("model " ++ aliasName ++ " target " ++ toString targetIndex ++
        " (provider bedrock) missing AWS credentials")
    else none
  else none

/-- The target loop of `validateModelConfig` (loader.go lines 224-231):
the first failing target aborts validation with its error. -/
def validateTargets (aliasName : String) : Nat → List TargetConfig → Option String
  | _, [] => none
  | i, t :: ts =>
    if t.provider = "" then
      some ("model " ++ aliasName ++ " target " ++ toString i ++ " has no provider")
    else
      match validateProviderConfig aliasName t.provider i t with
      | some e => some e
      | none => validateTargets aliasName (i + 1) ts

/-- The `validateSingleProviderConfig` function of loader.go lines 265-284. -/
def validateSingleProviderConfig (aliasName : String) (m : ModelConfig) : Option String :=
  if m.provider = "anthropic" ∨ m.provider = "openai" ∨ m.provider = "google" then
    if m.apiKey = "" then
      some ("model " ++ aliasName ++ " (provider " ++ m.provider ++ ") missing api_key")
    else none
  else if m.provider = "bedrock" then
    if m.awsAccessKeyID = "" ∨ m.awsSecretAccessKey = "" ∨ m.awsRegion = "" then
      some ("model " ++ aliasName ++ " (provider bedrock) missing AWS credentials")
    else none
  else if m.provider = "vertex-ai" then
    if m.vertexProjectID = "" ∨ m.vertexRegion = "" ∨ m.vertexServiceAccountJSON = "" then
      some ("model " ++ aliasName ++ " (provider vertex-ai) missing Vertex AI configuration")
    else none
  else some ("model " ++ aliasName ++ " has unknown provider: " ++ m.provider)

/-- The `validateModelConfig` function of loader.go lines 212-243.  A `some`
result is a rejection carrying the error message, `none` is acceptance. -/
def validateModelConfig (aliasName : String) (m : ModelConfig) : Option String :=
  match m.strategy with
  | some s =>
    if m.targets.length = 0 then
      some ("model " ++ aliasName ++ " has strategy but no targets")
    else if s.mode ≠ "fallback" ∧ s.mode ≠ "loadbalance" then
      some ("model " ++ aliasName ++ " has invalid strategy mode: " ++ s.mode)
    else validateTargets aliasName 0 m.targets
  | none =>
    if m.provider = "" then
      some ("model " ++ aliasName ++ " has no provider (and no strategy/targets)")
    else validateSingleProviderConfig aliasName m

/-- The `getTimeout` function of part_000 lines 435-440: the per-call deadline
in whole seconds, computed by Go integer division from the configured
milliseconds, with a 60-second default. -/
def getTimeout (m : ModelConfig) : Int :=
  if m.requestTimeout > 0 then m.requestTimeout / 1000 else 60

/-! ## Helper lemmas -/

theorem bearer_startsWith (c : String) :
    goStartsWith (goToLower ("Bearer " ++ c)) "bearer " = true := by
  show ((List.map Char.toLower ("Bearer ".data ++ c.data)).take ("bearer ".data.length)
      == "bearer ".data) = true
  rw [List.map_append]
  have h : List.map Char.toLower "Bearer ".data = "bearer ".data := by decide
  rw [h, List.take_left]
  simp

theorem stripBearer_bearer_append (c : String) : stripBearer ("Bearer " ++ c) = c := by
  unfold stripBearer
  rw [bearer_startsWith]
  show String.mk (("Bearer ".data ++ c.data).drop 7) = c
  have h7 : "Bearer ".data.length = 7 := by decide
  have hd : ("Bearer ".data ++ c.data).drop 7 = c.data := by rw [← h7, List.drop_left]
  rw [hd]

theorem bearer_append_ne_empty (c : String) : ("Bearer " ++ c) ≠ "" := by
  intro h
  have h2 : ("Bearer " ++ c).data = "".data := congrArg String.data h
  simp [String.data] at h2

theorem extractToken_bearer (c : String) : extractToken ("Bearer " ++ c) "" = c := by
  unfold extractToken
  rw [if_pos (bearer_append_ne_empty c)]
  exact stripBearer_bearer_append c

theorem extractToken_apiKey (c : String) : extractToken "" c = c := by
  simp [extractToken]

/-! ## C1: authentication resolves mapped credentials and rejects unmapped ones -/

/-- Claim C1 as frozen is refuted by the empty credential: the key map may
contain the empty string as a key (a `PORTUS_KEY_*` variable set to the empty
string), yet a request carrying that credential — via `Authorization: Bearer `
or an empty `x-api-key` — is rejected with the missing-header 401 instead of
resolving to the mapped application. -/
theorem claim_C1_counterexample :
    keyLookup [⟨"", "app"⟩] "" = some "app" ∧
    authMiddleware [⟨"", "app"⟩] "Bearer " "" ≠ AuthOutcome.ok "app" ∧
    authMiddleware [⟨"", "app"⟩] "" "" ≠ AuthOutcome.ok "app" := by
  decide

/-- Claim C1, amended to nonempty credentials: every nonempty credential in
the key map resolves, whether presented as a Bearer token or via x-api-key,
and the middleware then invokes the inner handler unchanged; every extracted
credential outside the map yields a 401 response that is independent of the
inner handler (which therefore never runs). -/
theorem claim_C1_main (pks : List ProxyKey) (c app authH apiK : String) :
    (c ≠ "" → keyLookup pks c = some app →
      authMiddleware pks ("Bearer " ++ c) "" = AuthOutcome.ok app ∧
      authMiddleware pks "" c = AuthOutcome.ok app ∧
      (∀ next hs, authMW pks next ⟨"Bearer " ++ c, ""⟩ hs = next ⟨"Bearer " ++ c, ""⟩ hs)) ∧
    (keyLookup pks (extractToken authH apiK) = none →
      (∀ next next' hs, authMW pks next ⟨authH, apiK⟩ hs = authMW pks next' ⟨authH, apiK⟩ hs) ∧
      (∀ next hs, (authMW pks next ⟨authH, apiK⟩ hs).status = 401)) := by
  constructor
  · intro hc hl
    have h1 : authMiddleware pks ("Bearer " ++ c) "" = AuthOutcome.ok app := by
      simp [authMiddleware, extractToken_bearer, hc, hl]
    have h2 : authMiddleware pks "" c = AuthOutcome.ok app := by
      simp [authMiddleware, extractToken_apiKey, hc, hl]
    exact ⟨h1, h2, fun next hs => by simp [authMW, h1]⟩
  · intro hnone
    have hcases : authMiddleware pks authH apiK = AuthOutcome.missingHeader ∨
        authMiddleware pks authH apiK = AuthOutcome.invalidKey := by
      unfold authMiddleware
      by_cases h : extractToken authH apiK = ""
      · left; simp [h]
      · right; simp [h, hnone]
    rcases hcases with h | h
    · exact ⟨fun next next' hs => by simp [authMW, h], fun next hs => by simp [authMW, h, httpError]⟩
    · exact ⟨fun next next' hs => by simp [authMW, h], fun next hs => by simp [authMW, h, httpError]⟩

/-- Witness for the amended C1 at a concrete key map and credential. -/
theorem claim_C1_witness :
    authMiddleware [⟨"pk-backend-123", "BACKEND"⟩] ("Bearer " ++ "pk-backend-123") ""
      = AuthOutcome.ok "BACKEND" ∧
    authMiddleware [⟨"pk-backend-123", "BACKEND"⟩] "" "pk-backend-123"
      = AuthOutcome.ok "BACKEND" ∧
    (∀ next hs, (authMW [⟨"pk-backend-123", "BACKEND"⟩] next ⟨"Bearer nope", ""⟩ hs).status = 401) := by
  have h := claim_C1_main [⟨"pk-backend-123", "BACKEND"⟩] "pk-backend-123" "BACKEND"
    "Bearer nope" ""
  obtain ⟨hres, hrej⟩ := h
  obtain ⟨h1, h2, _⟩ := hres (by decide) (by decide)
  exact ⟨h1, h2, (hrej (by decide)).2⟩

/-! ## C10: empty extracted tokens are treated as a missing credential -/

/-- Claim C10: whenever the extracted token is empty — Authorization present
but reducing to nothing after the Bearer prefix (for instance exactly
`Bearer `), or x-api-key present but empty (indistinguishable from absent in
Go's `Header.Get`) — AuthMiddleware answers the missing-header 401, exactly
as for a credential-free request, and the outcome is independent of the key
map, so no lookup with the empty token is ever observable. -/
theorem claim_C10_main (pks : List ProxyKey) (authH apiK : String)
    (h : extractToken authH apiK = "") :
    authMiddleware pks authH apiK = AuthOutcome.missingHeader ∧
    (∀ pks', authMiddleware pks' authH apiK = authMiddleware pks "" "") ∧
    (∀ next hs, authMW pks next ⟨authH, apiK⟩ hs = httpError hs missingAuthBody 401) := by
  have h1 : ∀ pks' : List ProxyKey, authMiddleware pks' authH apiK = AuthOutcome.missingHeader :=
    fun pks' => by simp [authMiddleware, h]
  refine ⟨h1 pks, fun pks' => ?_, fun next hs => ?_⟩
  · rw [h1 pks']
    simp [authMiddleware, extractToken]
  · simp [authMW, h1 pks]

/-- Witness for C10: the header value `Bearer ` with an empty x-api-key, on a
key map that even contains the empty credential. -/
theorem claim_C10_witness :
    authMiddleware [⟨"", "app"⟩] "Bearer " "" = AuthOutcome.missingHeader ∧
    (∀ next hs, authMW [⟨"", "app"⟩] next ⟨"Bearer ", ""⟩ hs = httpError hs missingAuthBody 401) := by
  have h := claim_C10_main [⟨"", "app"⟩] "Bearer " "" (by decide)
  exact ⟨h.1, h.2.2⟩

/-! ## C3: distinguishability of absent versus wrong credentials -/

/-- Claim C3 as frozen is refuted: a request with no credential headers and a
request with a wrong credential both get 401, but the JSON error bodies
differ (`Missing Authorization header` versus `Invalid Authorization key`). -/
theorem claim_C3_counterexample :
    (authMW [⟨"valid-key", "app"⟩] okHandler ⟨"", ""⟩ []).status = 401 ∧
    (authMW [⟨"valid-key", "app"⟩] okHandler ⟨"Bearer wrong-key", ""⟩ []).status = 401 ∧
    (authMW [⟨"valid-key", "app"⟩] okHandler ⟨"", ""⟩ []).body ≠
      (authMW [⟨"valid-key", "app"⟩] okHandler ⟨"Bearer wrong-key", ""⟩ []).body := by
  decide

/-- Claim C3, amended: both failure classes answer 401 with a fixed-shape JSON
body, but absent and present-but-wrong are distinguishable; what is identical
is the response across all requests whose extracted nonempty credential is
outside the snapshot — nothing leaks about which wrong credential was sent or
through which header it arrived. -/
theorem claim_C3_main (pks : List ProxyKey) (r1 r2 : Request) (next : Handler)
    (hs : List (String × String))
    (h1 : extractToken r1.authorization r1.xApiKey ≠ "")
    (h2 : extractToken r2.authorization r2.xApiKey ≠ "")
    (k1 : keyLookup pks (extractToken r1.authorization r1.xApiKey) = none)
    (k2 : keyLookup pks (extractToken r2.authorization r2.xApiKey) = none) :
    authMW pks next r1 hs = authMW pks next r2 hs ∧
    (authMW pks next r1 hs).status = 401 ∧
    (authMW pks next r1 hs).body = invalidKeyBody ++ "\n" := by
  have e1 : authMiddleware pks r1.authorization r1.xApiKey = AuthOutcome.invalidKey := by
    simp [authMiddleware, h1, k1]
  have e2 : authMiddleware pks r2.authorization r2.xApiKey = AuthOutcome.invalidKey := by
    simp [authMiddleware, h2, k2]
  refine ⟨?_, ?_, ?_⟩ <;> simp [authMW, e1, e2, httpError]

/-- Witness for the amended C3: two different wrong credentials presented
through two different headers give the same response. -/
theorem claim_C3_witness :
    authMW [⟨"valid-key", "app"⟩] okHandler ⟨"Bearer wrong-one", ""⟩ [] =
      authMW [⟨"valid-key", "app"⟩] okHandler ⟨"", "wrong-two"⟩ [] ∧
    (authMW [⟨"valid-key", "app"⟩] okHandler ⟨"Bearer wrong-one", ""⟩ []).status = 401 := by
  have h := claim_C3_main [⟨"valid-key", "app"⟩] ⟨"Bearer wrong-one", ""⟩ ⟨"", "wrong-two"⟩
    okHandler [] (by decide) (by decide) (by decide) (by decide)
  exact ⟨h.1, h.2.1⟩

/-! ## C2: presence of the X-Request-ID response header -/

/-- Claim C2 as frozen is refuted: `chain` makes the first listed middleware
outermost, so authentication runs before RequestIDMiddleware, and a 401
authentication failure is written before any request id is assigned — the
response carries no X-Request-ID header. -/
theorem claim_C2_counterexample :
    (protectedEndpoint [⟨"secret-key", "app"⟩] "20250101120000-abcdefgh" okHandler
      ⟨"", ""⟩ []).status = 401 ∧
    getRespHeader ((protectedEndpoint [⟨"secret-key", "app"⟩] "20250101120000-abcdefgh"
      okHandler ⟨"", ""⟩ []).headers) "X-Request-ID" = none := by
  decide

/-- Claim C2, amended: on the protected endpoints the request id is assigned
only after authentication succeeds, so responses to authenticated requests
carry X-Request-ID (for the repository's inner handlers, which never delete
it) while authentication-failure 401 responses carry none. -/
theorem claim_C2_main (pks : List ProxyKey) (rid : String) (inner : Handler)
    (r : Request) (hpres : PreservesRequestID inner) :
    (∀ app, authMiddleware pks r.authorization r.xApiKey = AuthOutcome.ok app →
      getRespHeader ((protectedEndpoint pks rid inner) r []).headers "X-Request-ID"
        = some rid) ∧
    ((authMiddleware pks r.authorization r.xApiKey = AuthOutcome.missingHeader ∨
      authMiddleware pks r.authorization r.xApiKey = AuthOutcome.invalidKey) →
      getRespHeader ((protectedEndpoint pks rid inner) r []).headers "X-Request-ID"
        = none) := by
  have hchain : ∀ hs, (protectedEndpoint pks rid inner) r hs
      = authMW pks (requestIDMW rid inner) r hs := fun _ => rfl
  constructor
  · intro app h
    rw [hchain]
    have hstep : authMW pks (requestIDMW rid inner) r []
        = inner r (setRespHeader [] "X-Request-ID" rid) := by
      simp [authMW, h, requestIDMW]
    rw [hstep]
    apply hpres
    simp [getRespHeader, setRespHeader]
  · intro hfail
    rw [hchain]
    rcases hfail with h | h <;>
      simp [authMW, h, httpError, getRespHeader, setRespHeader]

/-- Witness for the amended C2: a valid Bearer credential yields a response
carrying the request id, an absent credential yields one without it. -/
theorem claim_C2_witness :
    getRespHeader ((protectedEndpoint [⟨"secret-key", "app"⟩] "rid-1" okHandler)
      ⟨"Bearer secret-key", ""⟩ []).headers "X-Request-ID" = some "rid-1" ∧
    getRespHeader ((protectedEndpoint [⟨"secret-key", "app"⟩] "rid-1" okHandler)
      ⟨"", ""⟩ []).headers "X-Request-ID" = none := by
  have hpres : PreservesRequestID okHandler := by
    intro r hs v hv
    simpa [okHandler] using hv
  constructor
  · exact (claim_C2_main [⟨"secret-key", "app"⟩] "rid-1" okHandler
      ⟨"Bearer secret-key", ""⟩ hpres).1 "app" (by decide)
  · exact (claim_C2_main [⟨"secret-key", "app"⟩] "rid-1" okHandler
      ⟨"", ""⟩ hpres).2 (Or.inl (by decide))

/-! ## Lemmas about JSON object update -/

theorem jsonLookup_cons (a : String × JsonVal) (fs : List (String × JsonVal)) (k : String) :
    jsonLookup (a :: fs) k = if a.1 = k then some a.2 else jsonLookup fs k := by
  by_cases h : a.1 = k
  · simp [jsonLookup, List.find?, h]
  · have h2 : (a.1 == k) = false := by simpa using h
    simp [jsonLookup, List.find?, h2, h]

theorem lookup_mapReplace_self (k : String) (v : JsonVal) :
    ∀ fs : List (String × JsonVal), fs.any (fun kv => kv.1 == k) = true →
      jsonLookup (fs.map (fun kv => if kv.1 == k then (kv.1, v) else kv)) k = some v := by
  intro fs
  induction fs with
  | nil => simp
  | cons a fs ih =>
    intro h
    rw [List.map_cons]
    by_cases ha : a.1 = k
    · have ha2 : (a.1 == k) = true := by simpa using ha
      rw [ha2]
      simp only [if_true]
      rw [jsonLookup_cons]
      simp [ha]
    · have ha2 : (a.1 == k) = false := by simpa using ha
      rw [ha2]
      simp only [Bool.false_eq_true, if_false]
      rw [jsonLookup_cons, if_neg ha]
      have h2 : fs.any (fun kv => kv.1 == k) = true := by simpa [ha2] using h
      exact ih h2

theorem lookup_mapReplace_other (k k' : String) (v : JsonVal) (hk : k' ≠ k) :
    ∀ fs : List (String × JsonVal),
      jsonLookup (fs.map (fun kv => if kv.1 == k then (kv.1, v) else kv)) k' =
        jsonLookup fs k' := by
  intro fs
  induction fs with
  | nil => simp
  | cons a fs ih =>
    rw [List.map_cons, jsonLookup_cons a fs k']
    by_cases ha : a.1 = k
    · have ha2 : (a.1 == k) = true := by simpa using ha
      rw [ha2]
      simp only [if_true]
      rw [jsonLookup_cons]
      have hne : ¬ (a.1 = k') := fun h => hk (h.symm.trans ha)
      rw [if_neg hne, if_neg hne]
      exact ih
    · have ha2 : (a.1 == k) = false := by simpa using ha
      rw [ha2]
      simp only [Bool.false_eq_true, if_false]
      rw [jsonLookup_cons]
      by_cases hb : a.1 = k'
      · rw [if_pos hb, if_pos hb]
      · rw [if_neg hb, if_neg hb]
        exact ih

theorem lookup_append_single_self (k : String) (v : JsonVal) :
    ∀ fs : List (String × JsonVal), fs.any (fun kv => kv.1 == k) = false →
      jsonLookup (fs ++ [(k, v)]) k = some v := by
  intro fs
  induction fs with
  | nil => simp [jsonLookup, List.find?]
  | cons a fs ih =>
    intro h
    have ha : ¬ (a.1 = k) := by
      have := List.any_eq_false.mp h a (List.mem_cons_self a fs)
      simpa using this
    have h2 : fs.any (fun kv => kv.1 == k) = false := by
      rw [List.any_eq_false] at h ⊢
      exact fun x hx => h x (List.mem_cons_of_mem a hx)
    rw [List.cons_append, jsonLookup_cons, if_neg ha]
    exact ih h2

theorem lookup_append_single_other (k k' : String) (v : JsonVal) (hk : k' ≠ k) :
    ∀ fs : List (String × JsonVal),
      jsonLookup (fs ++ [(k, v)]) k' = jsonLookup fs k' := by
  intro fs
  induction fs with
  | nil =>
    rw [List.nil_append, jsonLookup_cons]
    rw [if_neg (fun h => hk (h.symm))]
  | cons a fs ih =>
    rw [List.cons_append, jsonLookup_cons, jsonLookup_cons]
    by_cases hb : a.1 = k'
    · rw [if_pos hb, if_pos hb]
    · rw [if_neg hb, if_neg hb]
      exact ih

theorem jsonLookup_jsonSet_self (fs : List (String × JsonVal)) (k : String) (v : JsonVal) :
    jsonLookup (jsonSet fs k v) k = some v := by
  unfold jsonSet
  by_cases h : fs.any (fun kv => kv.1 == k) = true
  · rw [if_pos h]
    exact lookup_mapReplace_self k v fs h
  · have h2 : fs.any (fun kv => kv.1 == k) = false := by rwa [Bool.not_eq_true] at h
    rw [if_neg h]
    exact lookup_append_single_self k v fs h2

theorem jsonLookup_jsonSet_other (fs : List (String × JsonVal)) (k k' : String) (v : JsonVal)
    (hk : k' ≠ k) : jsonLookup (jsonSet fs k v) k' = jsonLookup fs k' := by
  unfold jsonSet
  split
  · exact lookup_mapReplace_other k k' v hk fs
  · exact lookup_append_single_other k k' v hk fs

theorem jsonSet_count_one (fs : List (String × JsonVal)) (k : String) (v : JsonVal)
    (hnd : (fs.map Prod.fst).Nodup) :
    ((jsonSet fs k v).map Prod.fst).count k = 1 := by
  unfold jsonSet
  by_cases h : fs.any (fun kv => kv.1 == k) = true
  · rw [if_pos h]
    have hkeys : ((fs.map (fun kv => if kv.1 == k then (kv.1, v) else kv)).map Prod.fst)
        = fs.map Prod.fst := by
      rw [List.map_map]
      exact List.map_congr_left (fun kv _ => by by_cases hkv : kv.1 = k <;> simp [hkv])
    rw [hkeys]
    rw [List.any_eq_true] at h
    obtain ⟨kv, hm, he⟩ := h
    have hkv : kv.1 = k := by simpa using he
    have hmem : k ∈ fs.map Prod.fst := hkv ▸ List.mem_map_of_mem Prod.fst hm
    exact List.count_eq_one_of_mem hnd hmem
  · have h2 : fs.any (fun kv => kv.1 == k) = false := by rwa [Bool.not_eq_true] at h
    rw [if_neg h]
    rw [List.map_append, List.count_append]
    have hnot : k ∉ fs.map Prod.fst := by
      intro hmem
      obtain ⟨kv, hm, he⟩ := List.mem_map.mp hmem
      have := List.any_eq_false.mp h2 kv hm
      simp [he] at this
    simp [List.count_eq_zero.mpr hnot, List.count_cons]

/-! ## C4: token-budget injection on the messages path -/

/-- Claim C4 as frozen is refuted: with an alias override `max_tokens` that is
present and numeric but zero, the injected value is the literal 4096, not the
override value — presence alone does not decide the source of the budget. -/
theorem claim_C4_counterexample :
    jsonLookup [("max_tokens", JsonVal.num 0)] "max_tokens" = some (JsonVal.num 0) ∧
    parseMaxTokens [("model", JsonVal.str "m")] = some 0 ∧
    jsonLookup (injectMaxTokens 0 (some [("max_tokens", JsonVal.num 0)])
      [("model", JsonVal.str "m")]) "max_tokens" = some (JsonVal.num 4096) ∧
    JsonVal.num (4096 : Rat) ≠ JsonVal.num 0 := by
  refine ⟨rfl, rfl, rfl, ?_⟩
  intro h
  rw [JsonVal.num.injEq] at h
  norm_num at h

/-- Claim C4, amended: when the decoded budget is nonzero the body passes
through unchanged; when it is zero, exactly one `max_tokens` field appears in
the result, every other field is untouched, and the injected value is the
override's number truncated to an integer when that truncation is nonzero,
else the literal 4096. -/
theorem claim_C4_main (mt : Int) (op : Option (List (String × JsonVal)))
    (body : List (String × JsonVal)) (hmt : parseMaxTokens body = some mt)
    (hnd : (body.map Prod.fst).Nodup) :
    (mt ≠ 0 → injectMaxTokens mt op body = body) ∧
    (mt = 0 →
      jsonLookup (injectMaxTokens mt op body) "max_tokens"
        = some (JsonVal.num
            (((if overrideMaxTokens op = 0 then 4096 else overrideMaxTokens op) : Int) : Rat)) ∧
      ((injectMaxTokens mt op body).map Prod.fst).count "max_tokens" = 1 ∧
      (∀ k, k ≠ "max_tokens" → jsonLookup (injectMaxTokens mt op body) k = jsonLookup body k)) := by
  constructor
  · intro h
    simp [injectMaxTokens, h]
  · intro h
    subst h
    have hrw : injectMaxTokens 0 op body
        = jsonSet body "max_tokens" (JsonVal.num
            (((if overrideMaxTokens op = 0 then 4096 else overrideMaxTokens op) : Int) : Rat)) := by
      simp [injectMaxTokens]
    rw [hrw]
    exact ⟨jsonLookup_jsonSet_self body "max_tokens" _,
      jsonSet_count_one body "max_tokens" _ hnd,
      fun k hk => jsonLookup_jsonSet_other body "max_tokens" k _ hk⟩

/-- Witness for the amended C4: a body without a budget and an alias override
of 2048 receives exactly one `max_tokens` field with value 2048. -/
theorem claim_C4_witness :
    jsonLookup (injectMaxTokens 0 (some [("max_tokens", JsonVal.num 2048)])
      [("model", JsonVal.str "claude"), ("messages", JsonVal.arr [])]) "max_tokens"
      = some (JsonVal.num 2048) ∧
    ((injectMaxTokens 0 (some [("max_tokens", JsonVal.num 2048)])
      [("model", JsonVal.str "claude"), ("messages", JsonVal.arr [])]).map Prod.fst).count
        "max_tokens" = 1 := by
  have h := (claim_C4_main 0 (some [("max_tokens", JsonVal.num 2048)])
    [("model", JsonVal.str "claude"), ("messages", JsonVal.arr [])] rfl (by decide)).2 rfl
  exact ⟨h.1, h.2.1⟩

/-! ## Lemmas about header forwarding -/

theorem headerAdd_fresh (dst : List (String × List String)) (key v : String)
    (hdisj : ∀ kv ∈ dst, kv.1 ≠ canonicalHeaderKey key) :
    headerAdd dst key v = dst ++ [(canonicalHeaderKey key, [v])] := by
  have hany : dst.any (fun kv => kv.1 == canonicalHeaderKey key) = false :=
    List.any_eq_false.mpr (fun kv hm => by simpa using hdisj kv hm)
  simp [headerAdd, hany]

theorem headerAdd_last (dst : List (String × List String)) (key v : String)
    (acc : List String)
    (hdisj : ∀ kv ∈ dst, kv.1 ≠ canonicalHeaderKey key) :
    headerAdd (dst ++ [(canonicalHeaderKey key, acc)]) key v
      = dst ++ [(canonicalHeaderKey key, acc ++ [v])] := by
  have hany : (dst ++ [(canonicalHeaderKey key, acc)]).any
      (fun kv => kv.1 == canonicalHeaderKey key) = true :=
    List.any_eq_true.mpr ⟨(canonicalHeaderKey key, acc),
      List.mem_append_right dst (List.mem_singleton_self _), by simp⟩
  simp only [headerAdd, hany, if_true]
  rw [List.map_append]
  congr 1
  · exact List.map_congr_left (fun kv hm => by
      have : (kv.1 == canonicalHeaderKey key) = false := by simpa using hdisj kv hm
      simp [this]) |>.trans (List.map_id _)
  · simp

theorem addValues_last (key : String) :
    ∀ (vs : List String) (dst : List (String × List String)) (acc : List String),
      (∀ kv ∈ dst, kv.1 ≠ canonicalHeaderKey key) →
      vs.foldl (fun d v => headerAdd d key v) (dst ++ [(canonicalHeaderKey key, acc)])
        = dst ++ [(canonicalHeaderKey key, acc ++ vs)] := by
  intro vs
  induction vs with
  | nil => intro dst acc _; simp
  | cons v vs ih =>
    intro dst acc hdisj
    rw [List.foldl_cons, headerAdd_last dst key v acc hdisj, ih dst (acc ++ [v]) hdisj]
    simp

theorem addValues_fresh (key : String) (vs : List String)
    (dst : List (String × List String)) (hvs : vs ≠ [])
    (hdisj : ∀ kv ∈ dst, kv.1 ≠ canonicalHeaderKey key) :
    vs.foldl (fun d v => headerAdd d key v) dst
      = dst ++ [(canonicalHeaderKey key, vs)] := by
  match vs, hvs with
  | v :: vs, _ =>
    rw [List.foldl_cons, headerAdd_fresh dst key v hdisj,
      addValues_last key vs dst [v] hdisj]
    simp

theorem copyHeaders_go :
    ∀ (src dst : List (String × List String)),
      src.Pairwise (fun a b => canonicalHeaderKey a.1 ≠ canonicalHeaderKey b.1) →
      (∀ kv ∈ src, kv.2 ≠ []) →
      (∀ kv ∈ dst, ∀ kv' ∈ src, kv.1 ≠ canonicalHeaderKey kv'.1) →
      src.foldl
        (fun dst kv =>
          if hopByHopHeaders.contains (canonicalHeaderKey kv.1) then dst
          else kv.2.foldl (fun d v => headerAdd d kv.1 v) dst)
        dst
      = dst ++ src.filterMap (fun kv =>
          if hopByHopHeaders.contains (canonicalHeaderKey kv.1) then none
          else some (canonicalHeaderKey kv.1, kv.2)) := by
  intro src
  induction src with
  | nil => intro dst _ _ _; simp
  | cons kv rest ih =>
    intro dst hpw hvals hdisj
    have hpwrest := (List.pairwise_cons.mp hpw).2
    have hpwhead := (List.pairwise_cons.mp hpw).1
    have hvalsrest : ∀ kv' ∈ rest, kv'.2 ≠ [] :=
      fun kv' hm => hvals kv' (List.mem_cons_of_mem kv hm)
    rw [List.foldl_cons]
    by_cases hskip : hopByHopHeaders.contains (canonicalHeaderKey kv.1) = true
    · rw [if_pos hskip]
      rw [ih dst hpwrest hvalsrest
        (fun a ha b hb => hdisj a ha b (List.mem_cons_of_mem kv hb))]
      rw [List.filterMap_cons]
      have hmem : canonicalHeaderKey kv.1 ∈ hopByHopHeaders := by simpa using hskip
      simp [hmem]
    · rw [if_neg hskip]
      have hdisjhead : ∀ a ∈ dst, a.1 ≠ canonicalHeaderKey kv.1 :=
        fun a ha => hdisj a ha kv (List.mem_cons_self kv rest)
      rw [addValues_fresh kv.1 kv.2 dst (hvals kv (List.mem_cons_self kv rest)) hdisjhead]
      rw [ih (dst ++ [(canonicalHeaderKey kv.1, kv.2)]) hpwrest hvalsrest ?_]
      · rw [List.filterMap_cons]
        have hmem : canonicalHeaderKey kv.1 ∉ hopByHopHeaders := by
          simpa using hskip
        simp [hmem]
      · intro a ha b hb
        rcases List.mem_append.mp ha with h | h
        · exact hdisj a h b (List.mem_cons_of_mem kv hb)
        · rw [List.mem_singleton.mp h]
          exact hpwhead b hb

/-! ## C5: header forwarding excludes exactly the hop-by-hop set -/

/-- Claim C5: on an inbound header map — whose entries have pairwise distinct
canonical keys and at least one value each, as produced by Go's HTTP server —
`copyHeaders` forwards exactly the entries whose canonicalised key lies
outside the fixed skip set, with their full value lists unchanged and in
order, under the canonical key (so matching is case-insensitive); entries in
the set are dropped. -/
theorem claim_C5_main (src : List (String × List String))
    (hpw : src.Pairwise (fun a b => canonicalHeaderKey a.1 ≠ canonicalHeaderKey b.1))
    (hvals : ∀ kv ∈ src, kv.2 ≠ []) :
    copyHeaders src = src.filterMap (fun kv =>
      if hopByHopHeaders.contains (canonicalHeaderKey kv.1) then none
      else some (canonicalHeaderKey kv.1, kv.2)) := by
  have h := copyHeaders_go src [] hpw hvals (by intro a ha; cases ha)
  simpa [copyHeaders] using h

/-- Witness for C5: a lowercase `authorization` and a `Connection` header are
dropped, while the other headers pass through with all their values. -/
theorem claim_C5_witness :
    copyHeaders [("Content-Type", ["application/json"]), ("authorization", ["Bearer secret"]),
      ("x-custom-header", ["a", "b"]), ("Connection", ["keep-alive"])]
      = [("Content-Type", ["application/json"]), ("X-Custom-Header", ["a", "b"])] := by
  rw [claim_C5_main _ (by decide) (by decide)]
  rfl

/-! ## C6: construction of the outbound Portkey configuration -/

/-- Claim C6: retry and request-timeout are copied verbatim in both cases; a
single-provider alias copies provider, key, and override-parameter content
verbatim, with the AWS fields copied exactly when the provider is bedrock and
the Vertex fields exactly when it is vertex-ai (empty otherwise); a
multi-target alias copies the strategy and the ordered target list unmodified
and leaves the single-provider fields empty. -/
theorem claim_C6_main (m : ModelConfig) :
    (buildPortkeyConfig m).retry = m.retry ∧
    (buildPortkeyConfig m).requestTimeout = m.requestTimeout ∧
    (match m.strategy with
     | some s =>
        (buildPortkeyConfig m).strategy = some s ∧
        (buildPortkeyConfig m).targets = m.targets ∧
        (buildPortkeyConfig m).provider = "" ∧
        (buildPortkeyConfig m).apiKey = "" ∧
        (buildPortkeyConfig m).overrideParams = none
     | none =>
        (buildPortkeyConfig m).provider = m.provider ∧
        (buildPortkeyConfig m).apiKey = m.apiKey ∧
        (buildPortkeyConfig m).overrideParams = some (m.overrideParams.getD []) ∧
        (buildPortkeyConfig m).strategy = none ∧
        (buildPortkeyConfig m).targets = [] ∧
        (buildPortkeyConfig m).awsAccessKeyID
          = (if m.provider = "bedrock" then m.awsAccessKeyID else "") ∧
        (buildPortkeyConfig m).awsSecretAccessKey
          = (if m.provider = "bedrock" then m.awsSecretAccessKey else "") ∧
        (buildPortkeyConfig m).awsRegion
          = (if m.provider = "bedrock" then m.awsRegion else "") ∧
        (buildPortkeyConfig m).awsSessionToken
          = (if m.provider = "bedrock" then m.awsSessionToken else "") ∧
        (buildPortkeyConfig m).vertexProjectID
          = (if m.provider = "vertex-ai" then m.vertexProjectID else "") ∧
        (buildPortkeyConfig m).vertexRegion
          = (if m.provider = "vertex-ai" then m.vertexRegion else "") ∧
        (buildPortkeyConfig m).vertexServiceAccountJSON
          = (if m.provider = "vertex-ai" then m.vertexServiceAccountJSON else "")) := by
  cases hs : m.strategy with
  | some s => simp [buildPortkeyConfig, hs]
  | none =>
    by_cases hb : m.provider = "bedrock"
    · have hv : ¬ (m.provider = "vertex-ai") := by rw [hb]; decide
      simp [buildPortkeyConfig, hs, hb, hv]
    · by_cases hv : m.provider = "vertex-ai"
      · simp [buildPortkeyConfig, hs, hb, hv]
      · simp [buildPortkeyConfig, hs, hb, hv]

/-! ## C7: validation of strategy mode and target count -/

/-- Claim C7: an alias declaring a strategy is rejected when it has no targets
or when the mode is neither `fallback` nor `loadbalance`; otherwise the
strategy, mode, and target-count checks pass and validation reduces to the
per-target loop. -/
theorem claim_C7_main (aliasName : String) (m : ModelConfig) (s : StrategyConfig)
    (hs : m.strategy = some s) :
    (m.targets.length = 0 → (validateModelConfig aliasName m).isSome) ∧
    (m.targets.length ≠ 0 → ¬(s.mode = "fallback" ∨ s.mode = "loadbalance") →
      (validateModelConfig aliasName m).isSome) ∧
    (m.targets.length ≠ 0 → (s.mode = "fallback" ∨ s.mode = "loadbalance") →
      validateModelConfig aliasName m = validateTargets aliasName 0 m.targets) := by
  refine ⟨?_, ?_, ?_⟩
  · intro h
    simp [validateModelConfig, hs, h]
  · intro h hmode
    have h1 : s.mode ≠ "fallback" := fun hf => hmode (Or.inl hf)
    have h2 : s.mode ≠ "loadbalance" := fun hf => hmode (Or.inr hf)
    simp [validateModelConfig, hs, h, h1, h2]
  · intro h hmode
    rcases hmode with hm | hm <;> simp [validateModelConfig, hs, h, hm]

/-- Witness for C7 at concrete configurations: a valid fallback alias reduces
to the target loop (and is accepted), a roundrobin mode is rejected, and an
empty target list is rejected. -/
theorem claim_C7_witness :
    validateModelConfig "multi"
      { strategy := some { mode := "fallback" },
        targets := [{ provider := "openai", apiKey := "sk-1" }] }
      = validateTargets "multi" 0 [{ provider := "openai", apiKey := "sk-1" }] ∧
    (validateModelConfig "multi"
      { strategy := some { mode := "roundrobin" },
        targets := [{ provider := "openai", apiKey := "sk-1" }] }).isSome ∧
    (validateModelConfig "multi"
      { strategy := some { mode := "fallback" }, targets := [] }).isSome := by
  refine ⟨?_, ?_, ?_⟩
  · exact (claim_C7_main "multi" _ _ rfl).2.2 (by decide) (Or.inl rfl)
  · exact (claim_C7_main "multi" _ _ rfl).2.1 (by decide) (by decide)
  · exact (claim_C7_main "multi" _ _ rfl).1 rfl

/-! ## C8: per-target provider validation -/

/-- Claim C8 as frozen is refuted: a target with the unknown provider
`fakeprovider` passes validation (the switch has no default case), and a
vertex-ai target with no project, region, or service account also passes
(targets carry no Vertex fields and the vertex-ai arm checks nothing). -/
theorem claim_C8_counterexample :
    validateModelConfig "m"
      { strategy := some { mode := "fallback" },
        targets := [{ provider := "fakeprovider" }] } = none ∧
    validateModelConfig "m"
      { strategy := some { mode := "fallback" },
        targets := [{ provider := "vertex-ai" }] } = none := by
  exact ⟨rfl, rfl⟩

/-- Claim C8, amended: target validation checks only the api key for
anthropic, openai, and google targets and the three AWS fields for bedrock
targets; every other nonempty provider id — vertex-ai included, and unknown
ids too — is accepted at target level without further checks. -/
theorem claim_C8_main (aliasName provider : String) (i : Nat) (t : TargetConfig) :
    (provider = "anthropic" ∨ provider = "openai" ∨ provider = "google" →
      (validateProviderConfig aliasName provider i t = none ↔ t.apiKey ≠ "")) ∧
    (provider = "bedrock" →
      (validateProviderConfig aliasName provider i t = none ↔
        t.awsAccessKeyID ≠ "" ∧ t.awsSecretAccessKey ≠ "" ∧ t.awsRegion ≠ "")) ∧
    (provider ≠ "anthropic" → provider ≠ "openai" → provider ≠ "google" →
      provider ≠ "bedrock" → validateProviderConfig aliasName provider i t = none) := by
  refine ⟨?_, ?_, ?_⟩
  · intro h
    rw [validateProviderConfig, if_pos h]
    by_cases hk : t.apiKey = "" <;> simp [hk]
  · intro h
    have hno : ¬(provider = "anthropic" ∨ provider = "openai" ∨ provider = "google") := by
      subst h; decide
    rw [validateProviderConfig, if_neg hno, if_pos h]
    by_cases h1 : t.awsAccessKeyID = "" <;> by_cases h2 : t.awsSecretAccessKey = "" <;>
      by_cases h3 : t.awsRegion = "" <;> simp [h1, h2, h3]
  · intro h1 h2 h3 h4
    rw [validateProviderConfig, if_neg (by tauto), if_neg h4]

/-- Witness for the amended C8: an empty vertex-ai target is accepted, an
openai target without an api key is rejected. -/
theorem claim_C8_witness :
    validateProviderConfig "m" "vertex-ai" 0 { provider := "vertex-ai" } = none ∧
    validateProviderConfig "m" "openai" 0 { provider := "openai" } ≠ none := by
  constructor
  · exact (claim_C8_main "m" "vertex-ai" 0 _).2.2 (by decide) (by decide) (by decide)
      (by decide)
  · intro h
    exact ((claim_C8_main "m" "openai" 0 { provider := "openai" }).1
      (Or.inr (Or.inl rfl))).mp h rfl

/-! ## C9: the per-call upstream deadline -/

/-- Claim C9 as frozen is refuted: a configured timeout of 500 milliseconds
yields a deadline of 0 seconds, not 500 milliseconds converted to seconds —
the conversion truncates. -/
theorem claim_C9_counterexample :
    getTimeout { requestTimeout := 500 } = 0 ∧
    getTimeout { requestTimeout := 500 } * 1000
      ≠ ({ requestTimeout := 500 } : ModelConfig).requestTimeout := by
  exact ⟨rfl, by decide⟩

/-- Claim C9, amended: for a positive configured timeout the deadline is the
configured milliseconds rounded down to whole seconds (so sub-second timeouts
become 0 seconds), and for an absent, zero, or negative timeout it is 60
seconds. -/
theorem claim_C9_main (m : ModelConfig) :
    (0 < m.requestTimeout →
      1000 * getTimeout m ≤ m.requestTimeout ∧
      m.requestTimeout < 1000 * (getTimeout m + 1)) ∧
    (m.requestTimeout ≤ 0 → getTimeout m = 60) := by
  constructor
  · intro h
    rw [getTimeout, if_pos h]
    omega
  · intro h
    rw [getTimeout, if_neg (by omega)]

/-- Witness for the amended C9 at 30000 milliseconds and at the zero default. -/
theorem claim_C9_witness :
    1000 * getTimeout { requestTimeout := 30000 } ≤ 30000 ∧
    getTimeout { requestTimeout := 0 } = 60 := by
  exact ⟨((claim_C9_main { requestTimeout := 30000 }).1 (by decide)).1,
    (claim_C9_main { requestTimeout := 0 }).2 (by decide)⟩
